import Mathlib

/-!
Verification development for the `gpu-burn` monitoring and analysis scripts.

The Python sources are shallowly embedded as executable Lean definitions:

* `scripts/monitor_gpu_optimized.py` — `StreamingDataManager` (bounded
  streaming buffer), `OptimizedGPUMonitor._save_data` (persisted output),
  `SystemMonitor._get_context_switches` / `_get_swap_activity` (rate
  trackers), `GPUDataCollector._build_phys_to_visible_mapping` and the
  forward device resolution of `get_dmon_utilization`.
* `scripts/utils.py` — `validate_gpu_data`.
* `scripts/config.py` — the default `validation_config`.
* `scripts/gpu_analysis_core_optimized.py` — `parse_gpu_burn_logs`,
  `analyze_single_gpu_baseline`, `analyze_all_gpu_stress`.

Modelling conventions: Python floats are modelled as exact rationals;
Python dicts with string keys are modelled as association lists (first
binding wins on lookup, as later `d[k] = v` writes are modelled by
functional update where dict-overwrite semantics matter); `time.time()`
instants are rationals; samples held by the streaming buffer are an
abstract type.  Logging calls have no observable effect and are dropped.
-/

/- ================================================================
   StreamingDataManager (monitor_gpu_optimized.py, lines 35-69)
   ================================================================ -/

/-- State of `StreamingDataManager`: constructor fields `max_samples`,
`save_interval`, the in-memory `data_buffer` and the running counter
`total_samples`.  Buffered samples are abstract values of type `α`. -/
structure StreamingDataManager (α : Type) where
  max_samples : Nat
  save_interval : Nat
  data_buffer : List α
  total_samples : Nat
deriving Repr, DecidableEq

/-- Constructor `StreamingDataManager.__init__`: empty buffer, zero running total. -/
def StreamingDataManager.new (α : Type) (max_samples save_interval : Nat) :
    StreamingDataManager α :=
  { max_samples := max_samples
    save_interval := save_interval
    data_buffer := []
    total_samples := 0 }

/-- Method `StreamingDataManager._save_buffer`: if the buffer is empty, return;
otherwise the body only logs a debug line and clears the buffer — no
sample is persisted anywhere (the streaming-save logic is left as a
comment in the source).  `total_samples` is untouched. -/
def StreamingDataManager.save_buffer {α : Type} (m : StreamingDataManager α) :
    StreamingDataManager α :=
  if m.data_buffer.isEmpty then m else { m with data_buffer := [] }

/-- Method `StreamingDataManager.add_sample`: append the sample, bump the running
total, then flush the buffer if it reached `max_samples` or the running
total is a multiple of `save_interval`. -/
def StreamingDataManager.add_sample {α : Type} (m : StreamingDataManager α)
    (s : α) : StreamingDataManager α :=
  let m1 : StreamingDataManager α :=
    { m with
      data_buffer := m.data_buffer ++ [s]
      total_samples := m.total_samples + 1 }
  if m1.max_samples ≤ m1.data_buffer.length ∨
      m1.total_samples % m1.save_interval = 0 then
    m1.save_buffer
  else
    m1

/-- Method `StreamingDataManager.get_final_data`: a copy of the current buffer. -/
def StreamingDataManager.get_final_data {α : Type} (m : StreamingDataManager α) :
    List α :=
  m.data_buffer

/-- The document written by `OptimizedGPUMonitor._save_data`
(monitor_gpu_optimized.py, lines 823-849).  `collection_start` and
`collection_end` hold the first and last buffered sample (the source
extracts their `timestamp` field; the sample records are abstract here). -/
structure SavedOutput (α : Type) where
  total_samples : Nat
  collection_start : Option α
  collection_end : Option α
  is_final : Bool
  samples : List α
deriving Repr, DecidableEq

/-- Method `OptimizedGPUMonitor._save_data`: takes `get_final_data()` from the
data manager, writes its length as `metadata.total_samples` and the data
itself as `samples`. -/
def save_data {α : Type} (m : StreamingDataManager α) (is_final : Bool) :
    SavedOutput α :=
  let data := m.get_final_data
  { total_samples := data.length
    collection_start := data.head?
    collection_end := data.getLast?
    is_final := is_final
    samples := data }

/-- The pushes a monitoring run performs: the loop in
`OptimizedGPUMonitor.start_monitoring` calls `add_sample` once per tick on
a manager freshly constructed with the given bounds.  (The periodic
`_save_data(False)` calls do not modify the manager, so the manager state
at shutdown is exactly this fold.) -/
def monitor_run {α : Type} (max_samples save_interval : Nat)
    (pushes : List α) : StreamingDataManager α :=
  pushes.foldl StreamingDataManager.add_sample
    (StreamingDataManager.new α max_samples save_interval)

/- Basic facts about the buffer operations, shared by several claims. -/

theorem save_buffer_data_buffer {α : Type} (m : StreamingDataManager α) :
    m.save_buffer.data_buffer = [] := by
  unfold StreamingDataManager.save_buffer
  split
  · next h => simpa [List.isEmpty_iff] using h
  · rfl

theorem save_buffer_total_samples {α : Type} (m : StreamingDataManager α) :
    m.save_buffer.total_samples = m.total_samples := by
  unfold StreamingDataManager.save_buffer
  split <;> rfl

theorem save_buffer_max_samples {α : Type} (m : StreamingDataManager α) :
    m.save_buffer.max_samples = m.max_samples := by
  unfold StreamingDataManager.save_buffer
  split <;> rfl

theorem add_sample_total_samples {α : Type} (m : StreamingDataManager α)
    (s : α) : (m.add_sample s).total_samples = m.total_samples + 1 := by
  unfold StreamingDataManager.add_sample
  dsimp only
  split
  · rw [save_buffer_total_samples]
  · rfl

theorem add_sample_max_samples {α : Type} (m : StreamingDataManager α)
    (s : α) : (m.add_sample s).max_samples = m.max_samples := by
  unfold StreamingDataManager.add_sample
  dsimp only
  split
  · rw [save_buffer_max_samples]
  · rfl

/-- Invariant: with a positive bound, the buffer stays strictly below
`max_samples` after every `add_sample` call. -/
theorem add_sample_length_lt {α : Type} (m : StreamingDataManager α) (s : α)
    (hpos : 0 < m.max_samples) (hlen : m.data_buffer.length < m.max_samples) :
    (m.add_sample s).data_buffer.length < (m.add_sample s).max_samples := by
  rw [add_sample_max_samples]
  unfold StreamingDataManager.add_sample
  dsimp only
  split
  · rw [save_buffer_data_buffer]
    simpa using hpos
  · next h =>
    push_neg at h
    simpa using h.1

theorem monitor_run_total {α : Type} (ms si : Nat) (pushes : List α) :
    (monitor_run ms si pushes).total_samples = pushes.length := by
  unfold monitor_run
  suffices h : ∀ (l : List α) (m : StreamingDataManager α),
      (l.foldl StreamingDataManager.add_sample m).total_samples =
        m.total_samples + l.length by
    simpa [StreamingDataManager.new] using
      h pushes (StreamingDataManager.new α ms si)
  intro l
  induction l with
  | nil => intro m; simp
  | cons x xs ih =>
      intro m
      simp only [List.foldl_cons, ih, add_sample_total_samples,
        List.length_cons]
      omega

theorem monitor_run_length_lt {α : Type} (ms si : Nat) (hms : 0 < ms)
    (pushes : List α) :
    (monitor_run ms si pushes).data_buffer.length < ms := by
  unfold monitor_run
  suffices h : ∀ (l : List α) (m : StreamingDataManager α),
      m.max_samples = ms → m.data_buffer.length < ms →
      (l.foldl StreamingDataManager.add_sample m).data_buffer.length < ms by
    exact h pushes (StreamingDataManager.new α ms si) rfl (by simpa using hms)
  intro l
  induction l with
  | nil => intro m _ hlen; simpa using hlen
  | cons x xs ih =>
      intro m hmax hlen
      refine ih (m.add_sample x) (by rw [add_sample_max_samples, hmax]) ?_
      have := add_sample_length_lt m x (by omega) (by omega)
      rw [add_sample_max_samples, hmax] at this
      exact this

/-- Claim C3: for any `max_samples > 0` and `save_interval > 0`, after any
sequence of `add_sample` calls the buffer holds at most `max_samples`
records and `total_samples` equals the number of calls made; and a buffer
flush (`_save_buffer`) empties the buffer while leaving `total_samples`
unchanged. -/
theorem c3_streaming_buffer_invariants (α : Type) (ms si : Nat)
    (hms : 0 < ms) (hsi : 0 < si) (pushes : List α) :
    (monitor_run ms si pushes).total_samples = pushes.length ∧
    (monitor_run ms si pushes).data_buffer.length ≤ ms ∧
    (∀ m : StreamingDataManager α,
      m.save_buffer.data_buffer = [] ∧
      m.save_buffer.total_samples = m.total_samples) := by
  refine ⟨monitor_run_total ms si pushes,
    Nat.le_of_lt (monitor_run_length_lt ms si hms pushes), ?_⟩
  intro m
  exact ⟨save_buffer_data_buffer m, save_buffer_total_samples m⟩

/-- Witness for C3 at concrete inputs: bounds `3`, `2`, five pushes. -/
theorem c3_streaming_buffer_invariants_witness :
    (0 : Nat) < 3 ∧ (0 : Nat) < 2 ∧
    ((monitor_run 3 2 [10, 20, 30, 40, 50]).total_samples = 5 ∧
      (monitor_run 3 2 [10, 20, 30, 40, 50]).data_buffer.length ≤ 3 ∧
      (∀ m : StreamingDataManager Nat,
        m.save_buffer.data_buffer = [] ∧
        m.save_buffer.total_samples = m.total_samples)) := by
  refine ⟨by decide, by decide, ?_⟩
  have h := c3_streaming_buffer_invariants Nat 3 2 (by decide) (by decide)
    [10, 20, 30, 40, 50]
  simpa using h

set_option maxRecDepth 8192 in
/-- Claim C1 (code bug): at the failing input — a run with
`max_samples = 1000`, `save_interval = 30` and 31 pushed samples, ending
in the mandatory final flush — the persisted output holds only the one
sample still buffered; the 30 samples cleared by the implicit flush at
the 30th push (whose `_save_buffer` only logs and clears) are absent, so
the pushed sample `0` is lost. -/
theorem c1_final_flush_drops_cleared_samples :
    (save_data (monitor_run 1000 30 (List.range 31)) true).samples = [30] ∧
    (0 : Nat) ∉ (save_data (monitor_run 1000 30 (List.range 31)) true).samples ∧
    (List.range 31).length = 31 := by
  refine ⟨by decide, ?_, by decide⟩
  intro h
  rw [show (save_data (monitor_run 1000 30 (List.range 31)) true).samples
      = [30] from by decide] at h
  simp at h

set_option maxRecDepth 8192 in
/-- Claim C2 (code bug): at the failing input — the same 31-push run —
the final flush records `metadata.total_samples = 1` (the buffer length)
while the manager's cumulative counter `total_samples` is 31; the
persisted metadata does not carry the running total. -/
theorem c2_metadata_total_samples_is_buffer_length :
    (save_data (monitor_run 1000 30 (List.range 31)) true).total_samples = 1 ∧
    (monitor_run 1000 30 (List.range 31)).total_samples = 31 ∧
    (save_data (monitor_run 1000 30 (List.range 31)) true).total_samples ≠
      (monitor_run 1000 30 (List.range 31)).total_samples := by
  refine ⟨by decide, by decide, by decide⟩

/- ================================================================
   Rate tracker (monitor_gpu_optimized.py, SystemMonitor,
   _get_context_switches lines 475-498, _get_swap_activity lines 597-633)
   ================================================================ -/

/-- Python `int()` applied to a (rational-modelled) float: truncation
toward zero. -/
def pyInt (q : ℚ) : ℤ :=
  if q < 0 then -(Int.floor (-q)) else Int.floor q

/-- Method `SystemMonitor._get_context_switches`, given the `/proc/stat` counter
`current_ctxt` and the clock reading `current_time`.  The stored state is
the pair `(last_ctxt_value, last_ctxt_time)` kept in `self._last_values`
(`none` when the keys are absent).  Returns the reported rate and the new
stored state.  When a prior observation exists with a positive timestamp
and positive elapsed time, the rate is `int((curr - prev) / elapsed)`
clamped by `max(0, min(10000000, ·))`; on every path the current
observation is written back. -/
def get_context_switches (st : Option (Int × ℚ)) (current_ctxt : Int)
    (current_time : ℚ) : Int × Option (Int × ℚ) :=
  match st with
  | some (last_value, last_time) =>
    if 0 < last_time then
      let time_diff := current_time - last_time
      if 0 < time_diff then
        let ctxt_rate : ℚ := ((current_ctxt - last_value : ℤ) : ℚ) / time_diff
        (max 0 (min 10000000 (pyInt ctxt_rate)),
          some (current_ctxt, current_time))
      else
        (0, some (current_ctxt, current_time))
    else
      (0, some (current_ctxt, current_time))
  | none => (0, some (current_ctxt, current_time))

/-- Method `SystemMonitor._get_swap_activity`, given the `/proc/vmstat` counters
`pswpin`/`pswpout` and the clock reading.  Stored state is
`(pswpin, pswpout, last_swap_time)`; the result pair is
`(pswpin_per_sec, pswpout_per_sec)`, each `max(0, int(rate))` — no upper
clamp here; on every path the current observation is written back. -/
def get_swap_activity (st : Option (Int × Int × ℚ)) (pswpin pswpout : Int)
    (current_time : ℚ) : (Int × Int) × Option (Int × Int × ℚ) :=
  match st with
  | some (last_in, last_out, last_time) =>
    if 0 < last_time then
      let time_diff := current_time - last_time
      if 0 < time_diff then
        let pswpin_rate : ℚ := ((pswpin - last_in : ℤ) : ℚ) / time_diff
        let pswpout_rate : ℚ := ((pswpout - last_out : ℤ) : ℚ) / time_diff
        ((max 0 (pyInt pswpin_rate), max 0 (pyInt pswpout_rate)),
          some (pswpin, pswpout, current_time))
      else
        ((0, 0), some (pswpin, pswpout, current_time))
    else
      ((0, 0), some (pswpin, pswpout, current_time))
  | none => ((0, 0), some (pswpin, pswpout, current_time))

/-- Claim C4: the first context-switch rate computation returns 0 and
stores the observation; a subsequent computation with positive elapsed
time returns `(curr - prev) / elapsed` (as the Python `int` of the float
quotient) clamped to the interval `[0, 10000000]`. -/
theorem c4_context_switch_rate (v c : Int) (tp t : ℚ)
    (h1 : 0 < tp) (h2 : 0 < t - tp) :
    get_context_switches none v tp = (0, some (v, tp)) ∧
    (get_context_switches (some (v, tp)) c t).1 =
      max 0 (min 10000000 (pyInt (((c - v : ℤ) : ℚ) / (t - tp)))) ∧
    0 ≤ (get_context_switches (some (v, tp)) c t).1 ∧
    (get_context_switches (some (v, tp)) c t).1 ≤ 10000000 := by
  have hval : (get_context_switches (some (v, tp)) c t).1 =
      max 0 (min 10000000 (pyInt (((c - v : ℤ) : ℚ) / (t - tp)))) := by
    simp only [get_context_switches]
    rw [if_pos h1, if_pos h2]
  refine ⟨rfl, hval, ?_, ?_⟩
  · rw [hval]; exact le_max_left 0 _
  · rw [hval]
    exact max_le (by norm_num) (min_le_left _ _)

/-- Witness for C4: counter 100 at time 1, then counter 350 at time 2;
the reported rate is the clamped truncation of `(350 - 100) / (2 - 1)`. -/
theorem c4_context_switch_rate_witness :
    (0 : ℚ) < 1 ∧ (0 : ℚ) < 2 - 1 ∧
    (get_context_switches (some ((100 : Int), (1 : ℚ))) 350 2).1 =
      max 0 (min 10000000 (pyInt (((350 - 100 : ℤ) : ℚ) / (2 - 1)))) := by
  refine ⟨by norm_num, by norm_num, ?_⟩
  exact (c4_context_switch_rate 100 350 1 2 (by norm_num) (by norm_num)).2.1

/-- Claim C5 is false as stated: with stored observation
`(value 100, time 10)` and a current observation `(150, time 9)` — elapsed
time `-1 ≤ 0` — `_get_context_switches` returns 0 but *overwrites* the
stored `(last_value, last_timestamp)` with `(150, 9)` instead of leaving
it unchanged. -/
theorem c5_counterexample_state_overwritten :
    (9 : ℚ) - 10 ≤ 0 ∧
    (get_context_switches (some ((100 : Int), (10 : ℚ))) 150 9).1 = 0 ∧
    (get_context_switches (some ((100 : Int), (10 : ℚ))) 150 9).2 =
      some (150, 9) ∧
    ¬ (get_context_switches (some ((100 : Int), (10 : ℚ))) 150 9).2 =
        some (100, 10) := by
  have hres : get_context_switches (some ((100 : Int), (10 : ℚ))) 150 9 =
      (0, some (150, 9)) := by
    simp only [get_context_switches]
    rw [if_pos (by norm_num : (0 : ℚ) < 10),
      if_neg (by norm_num : ¬ (0 : ℚ) < 9 - 10)]
  refine ⟨by norm_num, ?_, ?_, ?_⟩
  · rw [hres]
  · rw [hres]
  · rw [hres]; simp

/-- Claim C5 (amended): for every rate-tracker metric with a stored prior
observation, if the elapsed time since that observation is ≤ 0 (clock
anomaly), the rate computation returns 0 — avoiding the division — but
it overwrites the stored `(last_value, last_timestamp)` with the current
observation rather than leaving it unchanged. -/
theorem c5_amended_clock_anomaly_returns_zero_and_overwrites
    (v c lin lout pin pout : Int) (tp t : ℚ)
    (h1 : 0 < tp) (h2 : t - tp ≤ 0) :
    get_context_switches (some (v, tp)) c t = (0, some (c, t)) ∧
    get_swap_activity (some (lin, lout, tp)) pin pout t =
      ((0, 0), some (pin, pout, t)) := by
  constructor
  · simp only [get_context_switches]
    rw [if_pos h1, if_neg (not_lt.mpr h2)]
  · simp only [get_swap_activity]
    rw [if_pos h1, if_neg (not_lt.mpr h2)]

/-- Witness for the amended C5 at a concrete clock anomaly. -/
theorem c5_amended_witness :
    (0 : ℚ) < 10 ∧ (9 : ℚ) - 10 ≤ 0 ∧
    (get_context_switches (some ((100 : Int), (10 : ℚ))) 150 9 =
        (0, some (150, 9)) ∧
      get_swap_activity (some ((7 : Int), (8 : Int), (10 : ℚ))) 20 30 9 =
        ((0, 0), some (20, 30, 9))) := by
  refine ⟨by norm_num, by norm_num, ?_⟩
  exact c5_amended_clock_anomaly_returns_zero_and_overwrites
    100 150 7 8 20 30 10 9 (by norm_num) (by norm_num)

/- ================================================================
   Validator (utils.py validate_gpu_data lines 64-101, and the default
   validation_config from config.py lines 47-55)
   ================================================================ -/

/-- A Python value that can appear in a GPU telemetry record: an int, a
float (modelled as an exact rational), a string, or `None`. -/
inductive PyVal : Type where
  | vint : ℤ → PyVal
  | vfloat : ℚ → PyVal
  | vstr : String → PyVal
  | vnone : PyVal
deriving Repr, DecidableEq

/-- Python `isinstance(value, (int, float))` on the modelled value universe. -/
def PyVal.isNumber : PyVal → Bool
  | PyVal.vint _ => true
  | PyVal.vfloat _ => true
  | _ => false

/-- A Python dict with string keys, as an association list (the embedded
records are only ever read through `in` / `.get`, for which the first
binding is authoritative). -/
def PyDict : Type := List (String × PyVal)

/-- Lookup `key in dict` / `dict.get(key)`. -/
def PyDict.get (d : PyDict) (k : String) : Option PyVal :=
  (List.find? (fun p => p.1 = k) d).map (fun p => p.2)

/-- The numeric fields of `config.validation_config` (config.py).  The
range bounds only influence warning logs in `validate_gpu_data`, but they
are part of the configuration record it reads. -/
structure ValidationConfig where
  enable_validation : Bool
  min_utilization : ℚ
  max_utilization : ℚ
  min_temperature : ℚ
  max_temperature : ℚ
  min_power : ℚ
  max_power : ℚ
deriving Repr, DecidableEq

/-- The default `validation_config` built by `GPUAnalysisConfig`. -/
def defaultValidationConfig : ValidationConfig :=
  { enable_validation := true
    min_utilization := 0
    max_utilization := 100
    min_temperature := 0
    max_temperature := 100
    min_power := 0
    max_power := 1000 }

/-- The `required_fields` list of `validate_gpu_data`. -/
def requiredFields : List String :=
  ["gpu_id", "sm_utilization", "memory_utilization", "temperature", "power"]

/-- The keys of the `validation_rules` dict of `validate_gpu_data` (the
fields whose values get the numeric-type check and the soft range
check). -/
def checkedFields : List String :=
  ["sm_utilization", "memory_utilization", "temperature", "power"]

/-- Function `utils.validate_gpu_data`: returns `True` immediately when
`enable_validation` is off; otherwise fails hard on a missing required
field or a non-numeric checked value; the range comparison against the
configured bounds only emits a warning and never changes the result. -/
def validate_gpu_data (cfg : ValidationConfig) (gpu_data : PyDict) : Bool :=
  if !cfg.enable_validation then
    true
  else if requiredFields.all (fun f => (gpu_data.get f).isSome) then
    checkedFields.all (fun f => ((gpu_data.get f).getD (PyVal.vint 0)).isNumber)
  else
    false

/-- Claim C6: with validation enabled, a record carrying all five
required fields with numeric values passes validation even when a value
is out of range (the range check is soft); a record missing a required
field, or carrying a non-numeric value for a checked field, fails. -/
theorem c6_validate_gpu_data_soft_and_hard_bounds (cfg : ValidationConfig)
    (henable : cfg.enable_validation = true) (gpu_data : PyDict) :
    ((∀ f ∈ requiredFields, ∃ v, gpu_data.get f = some v ∧ v.isNumber) →
      validate_gpu_data cfg gpu_data = true) ∧
    ((∃ f ∈ requiredFields, gpu_data.get f = none) →
      validate_gpu_data cfg gpu_data = false) ∧
    ((∃ f ∈ checkedFields, ∃ v, gpu_data.get f = some v ∧ v.isNumber = false) →
      validate_gpu_data cfg gpu_data = false) := by
  unfold validate_gpu_data
  rw [henable]
  simp only [Bool.not_true, Bool.false_eq_true, if_false]
  refine ⟨?_, ?_, ?_⟩
  · intro hall
    rw [if_pos, List.all_eq_true]
    · intro f hf
      have hmem : f ∈ requiredFields := by
        revert hf
        simp [checkedFields, requiredFields]
        tauto
      obtain ⟨v, hv, hnum⟩ := hall f hmem
      simp [hv, hnum]
    · rw [List.all_eq_true]
      intro f hf
      obtain ⟨v, hv, _⟩ := hall f hf
      simp [hv]
  · rintro ⟨f, hf, hnone⟩
    rw [if_neg]
    intro hall
    rw [List.all_eq_true] at hall
    have := hall f hf
    simp [hnone] at this
  · rintro ⟨f, hf, v, hv, hnum⟩
    split
    · next hall =>
      rw [Bool.eq_false_iff]
      intro hchk
      rw [List.all_eq_true] at hchk
      have := hchk f hf
      simp [hv, hnum] at this
    · rfl

/-- Witness for C6 under the default configuration: a record with
`sm_utilization = 150` (out of range) passes; dropping `power` fails; a
string `temperature` fails. -/
theorem c6_validate_gpu_data_witness :
    defaultValidationConfig.enable_validation = true ∧
    validate_gpu_data defaultValidationConfig
      [("gpu_id", PyVal.vint 0), ("sm_utilization", PyVal.vint 150),
       ("memory_utilization", PyVal.vint 40),
       ("temperature", PyVal.vint 65), ("power", PyVal.vfloat 250)] = true ∧
    validate_gpu_data defaultValidationConfig
      [("gpu_id", PyVal.vint 0), ("sm_utilization", PyVal.vint 50),
       ("memory_utilization", PyVal.vint 40),
       ("temperature", PyVal.vint 65)] = false ∧
    validate_gpu_data defaultValidationConfig
      [("gpu_id", PyVal.vint 0), ("sm_utilization", PyVal.vint 50),
       ("memory_utilization", PyVal.vint 40),
       ("temperature", PyVal.vstr "hot"), ("power", PyVal.vfloat 250)] =
      false := by
  refine ⟨rfl, ?_, ?_, ?_⟩
  · exact (c6_validate_gpu_data_soft_and_hard_bounds defaultValidationConfig
      rfl _).1 (by decide)
  · exact (c6_validate_gpu_data_soft_and_hard_bounds defaultValidationConfig
      rfl _).2.1 (by decide)
  · exact (c6_validate_gpu_data_soft_and_hard_bounds defaultValidationConfig
      rfl _).2.2 (by decide)

/-- Claim C10: with `enable_validation` switched off, `validate_gpu_data`
returns `True` for every input record — including records missing
required fields or carrying non-numeric values — so the hard structural
check is entirely bypassed. -/
theorem c10_validation_disabled_accepts_everything (cfg : ValidationConfig)
    (hdisabled : cfg.enable_validation = false) (gpu_data : PyDict) :
    validate_gpu_data cfg gpu_data = true := by
  unfold validate_gpu_data
  rw [hdisabled]
  rfl

/-- Witness for C10: the empty record (every required field missing, so
validation would otherwise fail) is accepted once the flag is off. -/
theorem c10_validation_disabled_witness :
    { defaultValidationConfig with
        enable_validation := false }.enable_validation = false ∧
    validate_gpu_data
      { defaultValidationConfig with enable_validation := false } [] =
      true := by
  refine ⟨rfl, ?_⟩
  exact c10_validation_disabled_accepts_everything _ rfl []

/- ================================================================
   Device identity mapping (monitor_gpu_optimized.py,
   GPUDataCollector._build_phys_to_visible_mapping lines 171-200 and the
   forward token resolution of get_dmon_utilization lines 106-115 /
   get_batch_gpu_data lines 206-215)
   ================================================================ -/

/-- One entry of `CUDA_VISIBLE_DEVICES` after splitting and stripping: a
numeric physical index (`tok.isdigit()`) or an opaque device UUID. -/
inductive CudaToken : Type where
  | num : ℕ → CudaToken
  | uuid : String → CudaToken
deriving Repr, DecidableEq

/-- The physical index a visibility token denotes.  A numeric token *is*
a physical index; a UUID resolves through the one-time
`nvidia-smi --query-gpu=index,uuid` listing, modelled as the association
list `uuid2phys` (this is both what `nvidia-smi -i <token>` does with the
token and what `_build_phys_to_visible_mapping` computes with
`uuid2phys.get(tok)`). -/
def resolveToken (uuid2phys : List (String × ℕ)) : CudaToken → Option ℕ
  | CudaToken.num n => some n
  | CudaToken.uuid s => (List.find? (fun p => p.1 = s) uuid2phys).map (fun p => p.2)

/-- Method `GPUDataCollector._build_phys_to_visible_mapping`: iterate over the
enumerated visibility tokens and record `mapping[phys] = v` for each
resolvable token, later entries overwriting earlier ones (Python dict
assignment); unresolvable UUIDs are skipped. -/
def build_phys_to_visible_mapping (uuid2phys : List (String × ℕ))
    (vis_tokens : List CudaToken) : ℕ → Option ℕ :=
  vis_tokens.enum.foldl
    (fun mapping vt =>
      match resolveToken uuid2phys vt.2 with
      | some phy => fun q => if q = phy then some vt.1 else mapping q
      | none => mapping)
    (fun _ => none)

/-- The forward resolution of `get_dmon_utilization` /
`get_batch_gpu_data`: a requested logical id `v` is looked up in
`vis_tokens` (`if v < len(vis_tokens): tok = vis_tokens[v]`) and the
token is handed to the external tool, which reports it under the physical
index it resolves to. -/
def forward_phys (uuid2phys : List (String × ℕ))
    (vis_tokens : List CudaToken) (v : ℕ) : Option ℕ :=
  (vis_tokens.get? v).bind (resolveToken uuid2phys)

theorem build_mapping_aux (uuid2phys : List (String × ℕ))
    (full : List CudaToken) :
    ∀ (l : List CudaToken) (n : ℕ) (m0 : ℕ → Option ℕ),
      (∀ i t, l.get? i = some t → full.get? (n + i) = some t) →
      (∀ p v, m0 p = some v → forward_phys uuid2phys full v = some p) →
      ∀ p v,
        (l.enumFrom n).foldl
          (fun mapping vt =>
            match resolveToken uuid2phys vt.2 with
            | some phy => fun q => if q = phy then some vt.1 else mapping q
            | none => mapping)
          m0 p = some v →
        forward_phys uuid2phys full v = some p := by
  intro l
  induction l with
  | nil =>
      intro n m0 _ hm0 p v h
      exact hm0 p v h
  | cons t ts ih =>
      intro n m0 hsuf hm0 p v h
      refine ih (n + 1) _ ?_ ?_ p v h
      · intro i t' hget
        have := hsuf (i + 1) t' (by simpa using hget)
        simpa [Nat.add_assoc, Nat.add_comm 1 i] using this
      · intro p' v' h'
        revert h'
        dsimp only
        cases hres : resolveToken uuid2phys t with
        | none => exact hm0 p' v'
        | some phy =>
            intro h'
            dsimp only at h'
            by_cases hp : p' = phy
            · rw [if_pos hp] at h'
              have hv' : v' = n := by
                have := h'
                simpa using this.symm
              subst hp
              rw [hv']
              have hfull : full.get? n = some t := by
                simpa using hsuf 0 t rfl
              unfold forward_phys
              rw [hfull]
              simpa using hres
            · rw [if_neg hp] at h'
              exact hm0 p' v' h'

/-- Claim C9: composing the physical→logical direction of
`_build_phys_to_visible_mapping` with the logical→physical forward
resolution of `get_dmon_utilization` / `get_batch_gpu_data` yields the
original physical index, for every visibility setting and every physical
index the mapping covers. -/
theorem c9_phys_to_logical_to_phys_roundtrip
    (uuid2phys : List (String × ℕ)) (vis_tokens : List CudaToken)
    (p v : ℕ)
    (h : build_phys_to_visible_mapping uuid2phys vis_tokens p = some v) :
    forward_phys uuid2phys vis_tokens v = some p := by
  refine build_mapping_aux uuid2phys vis_tokens vis_tokens 0
    (fun _ => none) ?_ ?_ p v ?_
  · intro i t hget
    simpa using hget
  · intro p' v' h'
    exact absurd h' (by simp)
  · exact h

/-- Witness for C9 with `CUDA_VISIBLE_DEVICES = "5,GPU-aaa"` where
`GPU-aaa` is the UUID of physical device 2: the mapping sends physical 2
to logical 1, and the forward resolution sends logical 1 back to
physical 2 (and likewise physical 5 ↔ logical 0). -/
theorem c9_phys_to_logical_to_phys_roundtrip_witness :
    build_phys_to_visible_mapping [("GPU-aaa", 2)]
      [CudaToken.num 5, CudaToken.uuid "GPU-aaa"] 2 = some 1 ∧
    forward_phys [("GPU-aaa", 2)]
      [CudaToken.num 5, CudaToken.uuid "GPU-aaa"] 1 = some 2 ∧
    build_phys_to_visible_mapping [("GPU-aaa", 2)]
      [CudaToken.num 5, CudaToken.uuid "GPU-aaa"] 5 = some 0 ∧
    forward_phys [("GPU-aaa", 2)]
      [CudaToken.num 5, CudaToken.uuid "GPU-aaa"] 0 = some 5 := by
  have h2 : build_phys_to_visible_mapping [("GPU-aaa", 2)]
      [CudaToken.num 5, CudaToken.uuid "GPU-aaa"] 2 = some 1 := by decide
  have h5 : build_phys_to_visible_mapping [("GPU-aaa", 2)]
      [CudaToken.num 5, CudaToken.uuid "GPU-aaa"] 5 = some 0 := by decide
  exact ⟨h2,
    c9_phys_to_logical_to_phys_roundtrip _ _ 2 1 h2,
    h5,
    c9_phys_to_logical_to_phys_roundtrip _ _ 5 0 h5⟩

/- ================================================================
   Shared string helpers (Python `needle in hay` substring test)
   ================================================================ -/

/-- Whether `needle` occurs as a contiguous run inside the character list. -/
def charsContains (needle : List Char) : List Char → Bool
  | [] => needle.isEmpty
  | c :: rest => needle.isPrefixOf (c :: rest) || charsContains needle rest

/-- Python `needle in hay` on strings. -/
def strContains (hay needle : String) : Bool :=
  charsContains needle.toList hay.toList

/- ================================================================
   Analysis core (gpu_analysis_core_optimized.py,
   analyze_single_gpu_baseline lines 311-396,
   analyze_all_gpu_stress lines 400-489,
   GPUDataValidator.validate_monitoring_data lines 64-88)
   ================================================================ -/

/-- Python `float(value)` on a telemetry value.  Numeric-literal strings (which
Python's `float` would also accept) are not modelled: with validation
enabled — every path the analysis claims exercise — string values never
reach a `float()` call, because `validate_gpu_data` rejects them. -/
def pyFloat : PyVal → Option ℚ
  | PyVal.vint n => some (n : ℚ)
  | PyVal.vfloat q => some q
  | PyVal.vstr _ => none
  | PyVal.vnone => none

/-- Python `str` of a telemetry value, as used by the `f'GPU{gpu_id}'` /
`f'gpu{gpu_id}'` keys.  GPU ids are integers on every realistic input;
the rational branch does not reproduce Python float formatting. -/
def pyStr : PyVal → String
  | PyVal.vint n => toString n
  | PyVal.vfloat q => toString q
  | PyVal.vstr s => s
  | PyVal.vnone => "None"

/-- One monitoring sample as consumed by the analysis: the parsed
`timestamp` (an instant modelled as a rational, assuming
`pd.to_datetime` succeeds) and the list of raw GPU dicts. -/
structure MonitoringSample where
  timestamp : ℚ
  gpus : List PyDict

/-- One entry of the `gflops_data` dict: file name to
`{'total_gflops': ..., 'gpu_count': ...}`, in insertion order. -/
structure GflopsEntry where
  log_name : String
  total_gflops : ℚ
  gpu_count : ℕ

/-- The `{'monitoring_data': ..., 'gflops_data': ...}` dict returned by
`load_phase_data`. -/
structure PhaseData where
  monitoring_data : List MonitoringSample
  gflops_data : List GflopsEntry

/-- Method `GPUDataValidator.validate_monitoring_data`: a list is required (true
by type), an empty list only warns and passes, and otherwise the first
sample acts as a representative schema guard — its required fields
(`timestamp`, `gpus`, present by construction here) and each of its GPU
dicts are checked with `validate_gpu_data`. -/
def validate_monitoring_data (cfg : ValidationConfig) :
    List MonitoringSample → Bool
  | [] => true
  | s :: _ => s.gpus.all (validate_gpu_data cfg)

/-- The per-GPU record rows both analysis functions build from a
sample (`timestamp`, raw `gpu_id`, and the five `float(...)` fields). -/
structure GpuAnalysisRecord where
  timestamp : ℚ
  gpu_id : PyVal
  utilization : ℚ
  memory_utilization : ℚ
  temperature : ℚ
  power : ℚ
  fb_mem_util_pct : ℚ
deriving DecidableEq

/-- Build one record from a validated GPU dict: `gpu['gpu_id']` raises on
a missing key; the measurement fields go through
`float(gpu.get(field, 0))`, which raises on a non-convertible value.
`none` models the raised exception. -/
def record_of_gpu (ts : ℚ) (gpu : PyDict) : Option GpuAnalysisRecord :=
  match gpu.get "gpu_id" with
  | none => none
  | some gid =>
    let fld := fun f => (gpu.get f).getD (PyVal.vint 0)
    match pyFloat (fld "sm_utilization"), pyFloat (fld "memory_utilization"),
        pyFloat (fld "temperature"), pyFloat (fld "power"),
        pyFloat (fld "fb_mem_util_pct") with
    | some u, some mu, some tp, some pw, some fb =>
        some { timestamp := ts, gpu_id := gid, utilization := u,
               memory_utilization := mu, temperature := tp, power := pw,
               fb_mem_util_pct := fb }
    | _, _, _, _, _ => none

/-- The inner loop over one sample's GPU list: invalid GPUs are skipped
(`continue`); a raised conversion error aborts the rest of this sample
(the per-sample `except` clause), keeping the records appended so far. -/
def process_sample_gpus (cfg : ValidationConfig) (ts : ℚ) :
    List PyDict → List GpuAnalysisRecord
  | [] => []
  | g :: gs =>
    if validate_gpu_data cfg g then
      match record_of_gpu ts g with
      | some r => r :: process_sample_gpus cfg ts gs
      | none => []
    else
      process_sample_gpus cfg ts gs

/-- The record-building loop over all samples (`gpu_records`). -/
def extract_gpu_records (cfg : ValidationConfig)
    (monitoring_data : List MonitoringSample) : List GpuAnalysisRecord :=
  (monitoring_data.map (fun s => process_sample_gpus cfg s.timestamp s.gpus)).flatten

/-- Maximum of a list of rationals (pandas `.max()`; only applied to
nonempty columns, 0 as the vacuous default). -/
def qMax : List ℚ → ℚ
  | [] => 0
  | x :: xs => xs.foldl max x

/-- Minimum of a list of rationals (pandas `.min()`). -/
def qMin : List ℚ → ℚ
  | [] => 0
  | x :: xs => xs.foldl min x

/-- Mean of a list of rationals (pandas `.mean()`; only applied to
nonempty columns). -/
def qMean (l : List ℚ) : ℚ := l.sum / (l.length : ℚ)

/-- Distinct values in first-occurrence order (pandas `.unique()`). -/
def uniqueFirstAux {α : Type} [DecidableEq α] (seen : List α) :
    List α → List α
  | [] => []
  | x :: xs =>
    if x ∈ seen then uniqueFirstAux seen xs
    else x :: uniqueFirstAux (x :: seen) xs

/-- Distinct values in first-occurrence order (pandas `.unique()`). -/
def uniqueFirst {α : Type} [DecidableEq α] (l : List α) : List α :=
  uniqueFirstAux [] l

/-- The per-device statistics block built by
`analyze_single_gpu_baseline`. -/
structure BaselineStats where
  avg_utilization : ℚ
  avg_memory_utilization : ℚ
  avg_temperature : ℚ
  max_temperature : ℚ
  avg_power : ℚ
  gflops : ℚ
  sample_count : ℕ
deriving DecidableEq

/-- Function `analyze_single_gpu_baseline`: empty monitoring data, a failed batch
validation, or zero extracted records each return the empty mapping;
otherwise one `BaselineStats` entry per distinct `gpu_id`, keyed
`GPU{id}`, with the device's throughput taken from the first
`gflops_data` entry whose file name contains `gpu{id}` (0 when none
matches). -/
def analyze_single_gpu_baseline (cfg : ValidationConfig)
    (phase1_data : PhaseData) : List (String × BaselineStats) :=
  if phase1_data.monitoring_data.isEmpty then []
  else if !(validate_monitoring_data cfg phase1_data.monitoring_data) then []
  else
    let records := extract_gpu_records cfg phase1_data.monitoring_data
    if records.isEmpty then []
    else
      (uniqueFirst (records.map (fun r => r.gpu_id))).map (fun gid =>
        let rs := records.filter (fun r => r.gpu_id = gid)
        let gpu_gflops :=
          ((phase1_data.gflops_data.find?
              (fun e => strContains e.log_name ("gpu" ++ pyStr gid))).map
            (fun e => e.total_gflops)).getD 0
        ("GPU" ++ pyStr gid,
          { avg_utilization := qMean (rs.map (fun r => r.utilization))
            avg_memory_utilization :=
              qMean (rs.map (fun r => r.memory_utilization))
            avg_temperature := qMean (rs.map (fun r => r.temperature))
            max_temperature := qMax (rs.map (fun r => r.temperature))
            avg_power := qMean (rs.map (fun r => r.power))
            gflops := gpu_gflops
            sample_count := rs.length }))

/-- The nested `full_stats` block of the stress summary. -/
structure FullStats where
  total_samples : ℕ
  max_temp_observed : ℚ
  data_available : Bool
  avg_utilization : ℚ
  avg_power_per_gpu : ℚ
deriving DecidableEq

/-- The `node_summary` dict built by `analyze_all_gpu_stress`. -/
structure NodeSummary where
  total_gflops : ℚ
  total_gpu_count : ℕ
  avg_total_power : ℚ
  max_temp : ℚ
  temp_delta : ℚ
  full_stats : FullStats
deriving DecidableEq

/-- Function `analyze_all_gpu_stress`: empty monitoring data, a failed batch
validation, or zero extracted records each return the empty dict
(`none` here); otherwise the node summary.  The per-timestamp `groupby`
aggregation (sum of power, max/min of temperature at each instant) is
modelled over the distinct timestamps; pandas sorts the groups by key,
which none of the order-invariant aggregates observe.  The
`baseline_stats` argument is accepted and unused, as in the source. -/
def analyze_all_gpu_stress (cfg : ValidationConfig) (phase2_data : PhaseData)
    (baseline_stats : List (String × BaselineStats)) : Option NodeSummary :=
  if phase2_data.monitoring_data.isEmpty then none
  else if !(validate_monitoring_data cfg phase2_data.monitoring_data) then none
  else
    let records := extract_gpu_records cfg phase2_data.monitoring_data
    if records.isEmpty then none
    else
      let sys :=
        ((phase2_data.gflops_data.find?
            (fun e => strContains e.log_name "all_gpu")).map
          (fun e => (e.total_gflops, e.gpu_count))).getD (0, 0)
      let tss := uniqueFirst (records.map (fun r => r.timestamp))
      let group := fun ts => records.filter (fun r => r.timestamp = ts)
      let power_sums := tss.map (fun ts => ((group ts).map (fun r => r.power)).sum)
      let temp_maxs := tss.map (fun ts => qMax ((group ts).map (fun r => r.temperature)))
      let temp_mins := tss.map (fun ts => qMin ((group ts).map (fun r => r.temperature)))
      some
        { total_gflops := sys.1
          total_gpu_count := sys.2
          avg_total_power := qMean power_sums
          max_temp := qMax temp_maxs
          temp_delta := qMax temp_maxs - qMin temp_mins
          full_stats :=
            { total_samples := records.length
              max_temp_observed := qMax (records.map (fun r => r.temperature))
              data_available := decide (0 < records.length)
              avg_utilization := qMean (records.map (fun r => r.utilization))
              avg_power_per_gpu := qMean (records.map (fun r => r.power)) } }

/-- The zero-valued stress summary with device count 0 that claim C7
expects for an empty sample set. -/
def zeroNodeSummary : NodeSummary :=
  { total_gflops := 0
    total_gpu_count := 0
    avg_total_power := 0
    max_temp := 0
    temp_delta := 0
    full_stats :=
      { total_samples := 0
        max_temp_observed := 0
        data_available := false
        avg_utilization := 0
        avg_power_per_gpu := 0 } }

/-- Claim C7 is false as stated: on the empty sample set,
`analyze_all_gpu_stress` returns the empty dict — no summary at all —
not a zero-valued summary with device count 0 (while
`analyze_single_gpu_baseline` does return the empty mapping). -/
theorem c7_counterexample_stress_returns_empty_dict :
    analyze_single_gpu_baseline defaultValidationConfig
      { monitoring_data := [], gflops_data := [] } = [] ∧
    analyze_all_gpu_stress defaultValidationConfig
      { monitoring_data := [], gflops_data := [] } [] = none ∧
    ¬ analyze_all_gpu_stress defaultValidationConfig
        { monitoring_data := [], gflops_data := [] } [] =
        some zeroNodeSummary := by
  refine ⟨rfl, rfl, fun h => ?_⟩
  have hn : analyze_all_gpu_stress defaultValidationConfig
      { monitoring_data := [], gflops_data := [] } [] = none := rfl
  rw [hn] at h
  exact Option.noConfusion h

/-- Claim C7 (amended): for an empty set of monitoring samples,
`analyze_single_gpu_baseline` returns an empty mapping and
`analyze_all_gpu_stress` also returns an empty result (the empty dict,
carrying no device count at all) rather than a populated zero-valued
summary; neither raises an exception (both are total functions that
short-circuit on the empty input). -/
theorem c7_amended_empty_input_yields_empty_results
    (cfg : ValidationConfig) (g1 g2 : List GflopsEntry)
    (baseline_stats : List (String × BaselineStats)) :
    analyze_single_gpu_baseline cfg
      { monitoring_data := [], gflops_data := g1 } = [] ∧
    analyze_all_gpu_stress cfg
      { monitoring_data := [], gflops_data := g2 } baseline_stats = none := by
  exact ⟨rfl, rfl⟩

/- ================================================================
   Throughput log parsing (gpu_analysis_core_optimized.py,
   parse_gpu_burn_logs lines 91-150)
   ================================================================ -/

/-- The whitespace class of Python's `\s` / `str.strip()`, restricted to
the ASCII characters that can occur in the byte-decoded logs. -/
def pyIsSpace (c : Char) : Bool :=
  c = ' ' || c = '\t' || c = '\n' || c = '\r' ||
    c = Char.ofNat 11 || c = Char.ofNat 12

/-- The integer denoted by a run of decimal digits (the `(\d+)` capture
group). -/
def natOfDigits (ds : List Char) : ℕ :=
  ds.foldl (fun n c => 10 * n + (c.toNat - Char.toNat '0')) 0

/-- What must follow `(\d+)\s+` for the regex
`\((\d+)\s+Gflop/s\)` to match. -/
def gflopTail : List Char := "Gflop/s)".toList

/-- The substring the line loop tests with `'Gflop/s' in line`. -/
def gflopSub : List Char := "Gflop/s".toList

/-- Attempt to match `(\d+)\s+Gflop/s\)` at the start of `l` (the part of
the regex after the opening parenthesis).  Greedy `\d+` and `\s+` are
deterministic here because digits, whitespace and the literal `G` are
disjoint.  Returns the captured integer and the rest of the input after
the match. -/
def tryMatch (l : List Char) : Option (ℕ × List Char) :=
  if (l.takeWhile Char.isDigit).isEmpty then none
  else if ((l.dropWhile Char.isDigit).takeWhile pyIsSpace).isEmpty then none
  else if gflopTail.isPrefixOf ((l.dropWhile Char.isDigit).dropWhile pyIsSpace) then
    some (natOfDigits (l.takeWhile Char.isDigit),
      ((l.dropWhile Char.isDigit).dropWhile pyIsSpace).drop gflopTail.length)
  else none

/-- Left-to-right, non-overlapping scan of `re.findall(r'\((\d+)\s+Gflop/s\)', ·)`:
at each `(` try the rest of the pattern; on success resume after the
match, otherwise advance one character.  Fuelled to keep the recursion
structural; `findGflops` supplies enough fuel. -/
def scanAux : ℕ → List Char → List ℕ
  | 0, _ => []
  | _ + 1, [] => []
  | fuel + 1, c :: rest =>
    if c = '(' then
      match tryMatch rest with
      | some (n, rest') => n :: scanAux fuel rest'
      | none => scanAux fuel rest
    else
      scanAux fuel rest

/-- All captured integers of `re.findall(r'\((\d+)\s+Gflop/s\)', l)`. -/
def findGflops (l : List Char) : List ℕ := scanAux l.length l

/-- Python `content.split('\n')` (keeps empty segments, like Python). -/
def splitLines : List Char → List (List Char)
  | [] => [[]]
  | c :: rest =>
    if c = '\n' then [] :: splitLines rest
    else
      match splitLines rest with
      | [] => [[c]]
      | l :: ls => (c :: l) :: ls

/-- The `for line in reversed(lines)` loop of `parse_gpu_burn_logs`
(applied to the reversed line list): skip lines without the `Gflop/s`
substring or without a full regex match; on the first line with matches
return the single value (one match) or the sum (multi-GPU line), paired
with the number of matches; `(0, 0)` when the loop exhausts. -/
def scan_last_line : List (List Char) → ℕ × ℕ
  | [] => (0, 0)
  | line :: rest =>
    if charsContains gflopSub line then
      let line_gflops := findGflops line
      if line_gflops.length = 0 then scan_last_line rest
      else if line_gflops.length = 1 then (line_gflops.headD 0, 1)
      else (line_gflops.sum, line_gflops.length)
    else
      scan_last_line rest

/-- Function `parse_gpu_burn_logs`: `none` models an unreadable file (failed path
validation or failed `read_file_safely`), whose guards return `(0.0, 0)`;
so do an empty file, a whitespace-only file (`content.strip()` falsy) and
a file without any regex match; otherwise the reversed-line loop decides
the result.  The float `total_gflops` is an exact integer sum, modelled
as `ℕ`. -/
def parse_gpu_burn_logs (content : Option (List Char)) : ℕ × ℕ :=
  match content with
  | none => (0, 0)
  | some content =>
    if content.isEmpty then (0, 0)
    else if content.all pyIsSpace then (0, 0)
    else if (findGflops content).isEmpty then (0, 0)
    else scan_last_line (splitLines content).reverse

/- Helper lemmas about takeWhile / dropWhile under append. -/

theorem dropWhile_length_le {α : Type} (p : α → Bool) (l : List α) :
    (l.dropWhile p).length ≤ l.length := by
  induction l with
  | nil => simp
  | cons c cs ih =>
      by_cases hc : p c
      · rw [List.dropWhile_cons_of_pos hc]
        exact Nat.le_succ_of_le ih
      · rw [List.dropWhile_cons_of_neg hc]

theorem takeWhile_append_left {α : Type} (p : α → Bool) (a b : List α)
    (h : a.dropWhile p ≠ []) :
    (a ++ b).takeWhile p = a.takeWhile p := by
  induction a with
  | nil => simp at h
  | cons c cs ih =>
      by_cases hc : p c
      · rw [List.dropWhile_cons_of_pos hc] at h
        rw [List.cons_append, List.takeWhile_cons_of_pos hc,
          List.takeWhile_cons_of_pos hc, ih h]
      · rw [List.cons_append, List.takeWhile_cons_of_neg hc,
          List.takeWhile_cons_of_neg hc]

theorem dropWhile_append_left {α : Type} (p : α → Bool) (a b : List α)
    (h : a.dropWhile p ≠ []) :
    (a ++ b).dropWhile p = a.dropWhile p ++ b := by
  induction a with
  | nil => simp at h
  | cons c cs ih =>
      by_cases hc : p c
      · rw [List.dropWhile_cons_of_pos hc] at h
        rw [List.cons_append, List.dropWhile_cons_of_pos hc,
          List.dropWhile_cons_of_pos hc, ih h]
      · rw [List.cons_append, List.dropWhile_cons_of_neg hc,
          List.dropWhile_cons_of_neg hc]
        rfl

theorem dropWhile_eq_drop_takeWhile {α : Type} (p : α → Bool) (l : List α) :
    l.dropWhile p = l.drop (l.takeWhile p).length := by
  induction l with
  | nil => simp
  | cons c cs ih =>
      by_cases hc : p c
      · rw [List.dropWhile_cons_of_pos hc, List.takeWhile_cons_of_pos hc,
          List.length_cons, List.drop_succ_cons, ih]
      · rw [List.dropWhile_cons_of_neg hc, List.takeWhile_cons_of_neg hc]
        rfl

theorem isPrefixOf_ne_nil {a b : List Char} (hp : a.isPrefixOf b = true)
    (ha : a ≠ []) : b ≠ [] := by
  intro hb
  subst hb
  cases a with
  | nil => exact ha rfl
  | cons x xs => simp [List.isPrefixOf] at hp

theorem isPrefixOf_append {a b c : List Char} (hp : a.isPrefixOf b = true) :
    a.isPrefixOf (b ++ c) = true := by
  rw [List.isPrefixOf_iff_prefix] at hp ⊢
  exact hp.trans (b.prefix_append c)

theorem tryMatch_eq_some {a : List Char} {n : ℕ} {r : List Char}
    (h : tryMatch a = some (n, r)) :
    a.takeWhile Char.isDigit ≠ [] ∧
    (a.dropWhile Char.isDigit).takeWhile pyIsSpace ≠ [] ∧
    gflopTail.isPrefixOf ((a.dropWhile Char.isDigit).dropWhile pyIsSpace) = true ∧
    n = natOfDigits (a.takeWhile Char.isDigit) ∧
    r = ((a.dropWhile Char.isDigit).dropWhile pyIsSpace).drop gflopTail.length := by
  unfold tryMatch at h
  split_ifs at h with h1 h2 h3
  · obtain ⟨hn, hr⟩ := Prod.mk.injEq .. ▸ Option.some.inj h
    refine ⟨?_, ?_, h3, hn.symm, hr.symm⟩
    · intro hnil
      rw [List.isEmpty_iff] at h1
      exact h1 hnil
    · intro hnil
      rw [List.isEmpty_iff] at h2
      exact h2 hnil

theorem tryMatch_append {a : List Char} {n : ℕ} {r : List Char} (b : List Char)
    (h : tryMatch a = some (n, r)) :
    tryMatch (a ++ b) = some (n, r ++ b) := by
  obtain ⟨hds, hws, hpre, hn, hr⟩ := tryMatch_eq_some h
  have hr1 : a.dropWhile Char.isDigit ≠ [] := by
    intro hnil
    rw [hnil] at hws
    exact hws rfl
  have hr2 : (a.dropWhile Char.isDigit).dropWhile pyIsSpace ≠ [] :=
    isPrefixOf_ne_nil hpre (by decide)
  have e1t := takeWhile_append_left Char.isDigit a b hr1
  have e1d := dropWhile_append_left Char.isDigit a b hr1
  have e2t := takeWhile_append_left pyIsSpace (a.dropWhile Char.isDigit) b hr2
  have e2d := dropWhile_append_left pyIsSpace (a.dropWhile Char.isDigit) b hr2
  have hlen : gflopTail.length ≤
      ((a.dropWhile Char.isDigit).dropWhile pyIsSpace).length :=
    (List.isPrefixOf_iff_prefix.mp hpre).length_le
  unfold tryMatch
  rw [e1t, e1d, e2t, e2d]
  rw [if_neg (by simpa [List.isEmpty_iff] using hds),
    if_neg (by simpa [List.isEmpty_iff] using hws),
    if_pos (isPrefixOf_append hpre)]
  rw [List.drop_append_of_le_length hlen]
  rw [hn, hr]

theorem tryMatch_length {a : List Char} {n : ℕ} {r : List Char}
    (h : tryMatch a = some (n, r)) : r.length ≤ a.length := by
  obtain ⟨-, -, -, -, hr⟩ := tryMatch_eq_some h
  subst hr
  calc (((a.dropWhile Char.isDigit).dropWhile pyIsSpace).drop
          gflopTail.length).length
      ≤ ((a.dropWhile Char.isDigit).dropWhile pyIsSpace).length := by
        rw [List.length_drop]
        exact Nat.sub_le _ _
    _ ≤ (a.dropWhile Char.isDigit).length :=
        dropWhile_length_le pyIsSpace (a.dropWhile Char.isDigit)
    _ ≤ a.length := dropWhile_length_le Char.isDigit a

theorem scanAux_fuel_irrel : ∀ (f1 f2 : ℕ) (l : List Char),
    l.length ≤ f1 → l.length ≤ f2 → scanAux f1 l = scanAux f2 l := by
  intro f1
  induction f1 with
  | zero =>
      intro f2 l h1 _
      have hl : l = [] := List.eq_nil_of_length_eq_zero (Nat.le_zero.mp h1)
      subst hl
      cases f2 <;> rfl
  | succ f ih =>
      intro f2 l h1 h2
      cases l with
      | nil => cases f2 <;> rfl
      | cons c rest =>
          cases f2 with
          | zero => simp at h2
          | succ g =>
              have hrest : rest.length ≤ f := by
                simpa using h1
              have hrestg : rest.length ≤ g := by
                simpa using h2
              simp only [scanAux]
              by_cases hc : c = '('
              · rw [if_pos hc, if_pos hc]
                cases htm : tryMatch rest with
                | none => exact ih g rest hrest hrestg
                | some nr =>
                    obtain ⟨m, r'⟩ := nr
                    have hl := tryMatch_length htm
                    dsimp only
                    rw [ih g r' (le_trans hl hrest) (le_trans hl hrestg)]
              · rw [if_neg hc, if_neg hc]
                exact ih g rest hrest hrestg

theorem findGflops_cons (c : Char) (rest : List Char) :
    findGflops (c :: rest) =
      if c = '(' then
        match tryMatch rest with
        | some nr => nr.1 :: findGflops nr.2
        | none => findGflops rest
      else findGflops rest := by
  unfold findGflops
  simp only [List.length_cons, scanAux]
  by_cases hc : c = '('
  · rw [if_pos hc, if_pos hc]
    cases htm : tryMatch rest with
    | none => rfl
    | some nr =>
        obtain ⟨m, r'⟩ := nr
        dsimp only
        rw [scanAux_fuel_irrel rest.length r'.length r' (tryMatch_length htm)
          le_rfl]
  · rw [if_neg hc, if_neg hc]

/-- A full regex match starts exactly here: an opening parenthesis
followed by a successful `tryMatch`. -/
def headMatch : List Char → Bool
  | [] => false
  | c :: rest => c = '(' && (tryMatch rest).isSome

theorem findGflops_eq_nil_iff (l : List Char) :
    findGflops l = [] ↔ ∀ i, headMatch (l.drop i) = false := by
  induction l with
  | nil =>
      constructor
      · intro _ i
        rw [List.drop_nil]
        rfl
      · intro _
        rfl
  | cons c rest ih =>
      rw [findGflops_cons]
      by_cases hc : c = '('
      · rw [if_pos hc]
        cases htm : tryMatch rest with
        | some nr =>
            apply iff_of_false
            · dsimp only
              exact List.cons_ne_nil _ _
            · intro hall
              have h0 := hall 0
              rw [List.drop_zero] at h0
              simp [headMatch, hc, htm] at h0
        | none =>
            rw [ih]
            constructor
            · intro h i
              cases i with
              | zero =>
                  rw [List.drop_zero]
                  simp [headMatch, hc, htm]
              | succ j =>
                  rw [List.drop_succ_cons]
                  exact h j
            · intro h j
              have := h (j + 1)
              rwa [List.drop_succ_cons] at this
      · rw [if_neg hc, ih]
        constructor
        · intro h i
          cases i with
          | zero =>
              rw [List.drop_zero]
              simp [headMatch, hc]
          | succ j =>
              rw [List.drop_succ_cons]
              exact h j
        · intro h j
          have := h (j + 1)
          rwa [List.drop_succ_cons] at this

theorem charsContains_tail (pat : List Char) (c : Char) (rest : List Char)
    (h : charsContains pat rest = true) :
    charsContains pat (c :: rest) = true := by
  unfold charsContains
  rw [h, Bool.or_true]

theorem charsContains_of_isPrefixOf (pat l : List Char)
    (h : pat.isPrefixOf l = true) : charsContains pat l = true := by
  cases l with
  | nil =>
      cases pat with
      | nil => rfl
      | cons p ps => simp [List.isPrefixOf] at h
  | cons c rest =>
      unfold charsContains
      rw [h, Bool.true_or]

theorem charsContains_of_drop (pat l : List Char) (i : ℕ)
    (h : charsContains pat (l.drop i) = true) :
    charsContains pat l = true := by
  induction l generalizing i with
  | nil => rwa [List.drop_nil] at h
  | cons c rest ih =>
      cases i with
      | zero => rwa [List.drop_zero] at h
      | succ j =>
          rw [List.drop_succ_cons] at h
          exact charsContains_tail pat c rest (ih j h)

theorem charsContains_of_dropWhile (pat : List Char) (p : Char → Bool)
    (l : List Char) (h : charsContains pat (l.dropWhile p) = true) :
    charsContains pat l = true := by
  rw [dropWhile_eq_drop_takeWhile] at h
  exact charsContains_of_drop pat l (l.takeWhile p).length h

theorem splitLines_ne_nil (l : List Char) : splitLines l ≠ [] := by
  cases l with
  | nil => simp [splitLines]
  | cons c rest =>
      unfold splitLines
      by_cases hc : c = '\n'
      · rw [if_pos hc]
        exact List.cons_ne_nil _ _
      · rw [if_neg hc]
        cases h : splitLines rest with
        | nil => exact List.cons_ne_nil _ _
        | cons y ys => exact List.cons_ne_nil _ _

theorem splitLines_head_append (l : List Char) :
    ∀ h t, splitLines l = h :: t → ∃ suf, l = h ++ suf := by
  induction l with
  | nil =>
      intro h t he
      simp [splitLines] at he
      exact ⟨[], by rw [he.1]; rfl⟩
  | cons c rest ih =>
      intro h t he
      unfold splitLines at he
      by_cases hc : c = '\n'
      · rw [if_pos hc] at he
        injection he with he1 _
        exact ⟨c :: rest, by rw [← he1]; rfl⟩
      · rw [if_neg hc] at he
        cases hs : splitLines rest with
        | nil => exact absurd hs (splitLines_ne_nil rest)
        | cons l0 ls =>
            rw [hs] at he
            injection he with he1 he2
            obtain ⟨suf, hsuf⟩ := ih l0 ls hs
            refine ⟨suf, ?_⟩
            rw [← he1, hsuf]
            rfl

theorem mem_splitLines_append : ∀ (l x : List Char), x ∈ splitLines l →
    ∃ pre suf, l = pre ++ x ++ suf := by
  intro l
  induction l with
  | nil =>
      intro x hx
      simp [splitLines] at hx
      subst hx
      exact ⟨[], [], rfl⟩
  | cons c rest ih =>
      intro x hx
      unfold splitLines at hx
      by_cases hc : c = '\n'
      · rw [if_pos hc] at hx
        rcases List.mem_cons.mp hx with hx1 | hx2
        · subst hx1
          exact ⟨[], c :: rest, rfl⟩
        · obtain ⟨pre, suf, hd⟩ := ih x hx2
          exact ⟨c :: pre, suf, by rw [hd]; rfl⟩
      · rw [if_neg hc] at hx
        cases hs : splitLines rest with
        | nil => exact absurd hs (splitLines_ne_nil rest)
        | cons l0 ls =>
            rw [hs] at hx
            rcases List.mem_cons.mp hx with hx1 | hx2
            · subst hx1
              obtain ⟨suf, hsuf⟩ := splitLines_head_append rest l0 ls hs
              refine ⟨[], suf, ?_⟩
              rw [hsuf]
              rfl
            · have hx' : x ∈ splitLines rest := by
                rw [hs]
                exact List.mem_cons_of_mem _ hx2
              obtain ⟨pre, suf, hd⟩ := ih x hx'
              exact ⟨c :: pre, suf, by rw [hd]; rfl⟩

theorem headMatch_append (a b : List Char) (h : headMatch a = true) :
    headMatch (a ++ b) = true := by
  cases a with
  | nil => simp [headMatch] at h
  | cons c rest =>
      unfold headMatch at h ⊢
      rw [Bool.and_eq_true] at h
      obtain ⟨hc, hsome⟩ := h
      cases htm : tryMatch rest with
      | none => rw [htm] at hsome; simp at hsome
      | some nr =>
          obtain ⟨m, r'⟩ := nr
          rw [List.cons_append]
          rw [Bool.and_eq_true]
          exact ⟨hc, by rw [tryMatch_append b htm]; rfl⟩

theorem headMatch_drop_lt {l : List Char} {i : ℕ}
    (h : headMatch (l.drop i) = true) : i < l.length := by
  by_contra hge
  push_neg at hge
  rw [List.drop_eq_nil_of_le hge] at h
  simp [headMatch] at h

theorem findGflops_ne_nil_exists {l : List Char} (h : findGflops l ≠ []) :
    ∃ i, headMatch (l.drop i) = true := by
  by_contra hno
  push_neg at hno
  refine h ((findGflops_eq_nil_iff l).mpr ?_)
  intro i
  have := hno i
  revert this
  cases headMatch (l.drop i) <;> simp

theorem findGflops_transfer {content x : List Char}
    (hmem : x ∈ splitLines content) (hne : findGflops x ≠ []) :
    findGflops content ≠ [] := by
  obtain ⟨pre, suf, hdec⟩ := mem_splitLines_append content x hmem
  obtain ⟨i, hi⟩ := findGflops_ne_nil_exists hne
  have hlt : i < x.length := headMatch_drop_lt hi
  intro hnil
  have hall := (findGflops_eq_nil_iff content).mp hnil (pre.length + i)
  rw [hdec, List.append_assoc, List.drop_append,
    List.drop_append_of_le_length (le_of_lt hlt),
    headMatch_append _ _ hi] at hall
  exact Bool.noConfusion hall

theorem lparen_mem_of_findGflops_ne_nil {l : List Char}
    (h : findGflops l ≠ []) : Char.ofNat 40 ∈ l := by
  obtain ⟨i, hi⟩ := findGflops_ne_nil_exists h
  cases hd : l.drop i with
  | nil => rw [hd] at hi; simp [headMatch] at hi
  | cons c rest =>
      rw [hd] at hi
      unfold headMatch at hi
      rw [Bool.and_eq_true] at hi
      have hc : c = '(' := by simpa using hi.1
      have hmem : Char.ofNat 40 ∈ l.drop i := by
        rw [hd, hc]
        exact List.mem_cons_self _ _
      exact List.mem_of_mem_drop hmem

theorem findGflops_contains_gflopSub {l : List Char}
    (h : findGflops l ≠ []) : charsContains gflopSub l = true := by
  obtain ⟨i, hi⟩ := findGflops_ne_nil_exists h
  cases hd : l.drop i with
  | nil => rw [hd] at hi; simp [headMatch] at hi
  | cons c rest =>
      rw [hd] at hi
      unfold headMatch at hi
      rw [Bool.and_eq_true] at hi
      obtain ⟨-, hsome⟩ := hi
      cases htm : tryMatch rest with
      | none => rw [htm] at hsome; simp at hsome
      | some nr =>
          obtain ⟨m, r'⟩ := nr
          obtain ⟨-, -, hpre, -, -⟩ := tryMatch_eq_some htm
          have hsub : gflopSub.isPrefixOf
              ((rest.dropWhile Char.isDigit).dropWhile pyIsSpace) = true := by
            rw [List.isPrefixOf_iff_prefix] at hpre ⊢
            exact List.IsPrefix.trans ⟨[')'], by decide⟩ hpre
          have s1 := charsContains_of_isPrefixOf _ _ hsub
          have s2 := charsContains_of_dropWhile gflopSub pyIsSpace _ s1
          have s3 := charsContains_of_dropWhile gflopSub Char.isDigit _ s2
          have s4 := charsContains_tail gflopSub c rest s3
          rw [← hd] at s4
          exact charsContains_of_drop _ _ i s4

theorem scan_last_line_cons (line : List Char) (rest : List (List Char)) :
    scan_last_line (line :: rest) =
      if charsContains gflopSub line then
        if (findGflops line).length = 0 then scan_last_line rest
        else if (findGflops line).length = 1 then ((findGflops line).headD 0, 1)
        else ((findGflops line).sum, (findGflops line).length)
      else scan_last_line rest := rfl

theorem scan_last_line_spec (ls : List (List Char)) :
    (∀ line, ls.find? (fun l => !(findGflops l).isEmpty) = some line →
      scan_last_line ls = ((findGflops line).sum, (findGflops line).length)) ∧
    (ls.find? (fun l => !(findGflops l).isEmpty) = none →
      scan_last_line ls = (0, 0)) := by
  induction ls with
  | nil =>
      constructor
      · intro line h
        simp at h
      · intro _
        rfl
  | cons x rest ih =>
      by_cases hx : findGflops x = []
      · have hfind : (x :: rest).find? (fun l => !(findGflops l).isEmpty) =
            rest.find? (fun l => !(findGflops l).isEmpty) :=
          List.find?_cons_of_neg rest (by simp [hx])
        have hscan : scan_last_line (x :: rest) = scan_last_line rest := by
          rw [scan_last_line_cons]
          by_cases hcs : charsContains gflopSub x = true
          · rw [if_pos hcs, hx]
            rfl
          · rw [if_neg hcs]
        constructor
        · intro line h
          rw [hfind] at h
          rw [hscan]
          exact ih.1 line h
        · intro h
          rw [hfind] at h
          rw [hscan]
          exact ih.2 h
      · have hpred : (fun l => !(findGflops l).isEmpty) x = true := by
          simp [List.isEmpty_iff, hx]
        have hfind : (x :: rest).find? (fun l => !(findGflops l).isEmpty) =
            some x := List.find?_cons_of_pos rest hpred
        have hcs := findGflops_contains_gflopSub hx
        have hscan : scan_last_line (x :: rest) =
            ((findGflops x).sum, (findGflops x).length) := by
          rw [scan_last_line_cons]
          rw [if_pos hcs]
          rw [if_neg (by simpa [List.length_eq_zero] using hx)]
          by_cases h1 : (findGflops x).length = 1
          · rw [if_pos h1]
            obtain ⟨n, hn⟩ := List.length_eq_one.mp h1
            rw [hn]
            simp
          · rw [if_neg h1]
        constructor
        · intro line h
          rw [hfind] at h
          have hlx : line = x := (Option.some.inj h).symm
          subst hlx
          exact hscan
        · intro h
          rw [hfind] at h
          exact Option.noConfusion h

/-- Claim C8: `parse_gpu_burn_logs` of an unreadable file is `(0, 0)`;
for readable content, if some line of the file carries a
`(<integer> Gflop/s)` match then the result is the sum of all matched
integers on the last such line paired with their count, and otherwise
(empty file, whitespace-only file, or no match on any line) the result
is `(0, 0)`. -/
theorem c8_parse_gpu_burn_logs_spec (content : List Char) :
    parse_gpu_burn_logs none = (0, 0) ∧
    (∀ line,
      (splitLines content).reverse.find? (fun l => !(findGflops l).isEmpty) =
        some line →
      parse_gpu_burn_logs (some content) =
        ((findGflops line).sum, (findGflops line).length)) ∧
    ((splitLines content).reverse.find? (fun l => !(findGflops l).isEmpty) =
        none →
      parse_gpu_burn_logs (some content) = (0, 0)) := by
  refine ⟨rfl, ?_, ?_⟩
  · intro line hfind
    have hmem : line ∈ splitLines content :=
      List.mem_reverse.mp (List.mem_of_find?_eq_some hfind)
    have hlinene : findGflops line ≠ [] := by
      have hp := List.find?_some hfind
      simpa [List.isEmpty_iff] using hp
    obtain ⟨pre, suf, hdec⟩ := mem_splitLines_append content line hmem
    have hlne : line ≠ [] := by
      intro h
      rw [h] at hlinene
      exact hlinene rfl
    have hcne : content ≠ [] := by
      rw [hdec]
      intro h
      rcases List.append_eq_nil.mp h with ⟨h1, -⟩
      rcases List.append_eq_nil.mp h1 with ⟨-, h3⟩
      exact hlne h3
    have hglobal : findGflops content ≠ [] := findGflops_transfer hmem hlinene
    have hnotall : ¬ content.all pyIsSpace = true := by
      intro hall
      have hmemp : Char.ofNat 40 ∈ content := by
        rw [hdec]
        exact List.mem_append_left suf
          (List.mem_append_right pre (lparen_mem_of_findGflops_ne_nil hlinene))
      have := List.all_eq_true.mp hall _ hmemp
      exact absurd this (by decide)
    unfold parse_gpu_burn_logs
    dsimp only
    rw [if_neg (by simpa [List.isEmpty_iff] using hcne), if_neg hnotall,
      if_neg (by simpa [List.isEmpty_iff] using hglobal)]
    exact (scan_last_line_spec _).1 line hfind
  · intro hfind
    unfold parse_gpu_burn_logs
    dsimp only
    split_ifs with h1 h2 h3
    · rfl
    · rfl
    · rfl
    · exact (scan_last_line_spec _).2 hfind

/-- Witness for C8 on a concrete two-device log: the last matching line
is `(10 Gflop/s) (20 Gflop/s) ok` and the parse yields the sum 30 with
match count 2. -/
theorem c8_parse_gpu_burn_logs_witness :
    (splitLines ("x\n(10 Gflop/s) (20 Gflop/s) ok\ny".toList)).reverse.find?
        (fun l => !(findGflops l).isEmpty) =
      some ("(10 Gflop/s) (20 Gflop/s) ok".toList) ∧
    parse_gpu_burn_logs
        (some ("x\n(10 Gflop/s) (20 Gflop/s) ok\ny".toList)) =
      ((findGflops ("(10 Gflop/s) (20 Gflop/s) ok".toList)).sum,
        (findGflops ("(10 Gflop/s) (20 Gflop/s) ok".toList)).length) ∧
    parse_gpu_burn_logs
        (some ("x\n(10 Gflop/s) (20 Gflop/s) ok\ny".toList)) =
      (30, 2) := by
  refine ⟨by decide, ?_, by decide⟩
  exact (c8_parse_gpu_burn_logs_spec _).2.1 _ (by decide)
